import Mathlib

/-!
Verification of the scraper dashboard's core engines against their
specification: the extractive summarizer and thematic classifier of
src/app/api/summarize/route.ts, and the record merger, filter/bucketing
engine and response assembly of src/app/api/items/route.ts and the
statistics route (src/components/ui/chart.tsx).

Strings are modelled through their character lists; characters are compared
through their code points so the character classes of the JavaScript regexes
are explicit. JavaScript's number type is modelled by Int, with NaN modelled
by Option (none = NaN) where it can arise (parseInt).
-/

open List

namespace Scrapper

/-! ## JavaScript string primitives -/

/-- The space character. -/
def spC : Char := Char.ofNat 32

/-- The dash character. -/
def dashC : Char := Char.ofNat 45

/-- Membership in the regex class \s (its ASCII part: tab, lf, vt, ff, cr, space). -/
def isWs (c : Char) : Bool :=
  c.toNat == 32 || c.toNat == 9 || c.toNat == 10 || c.toNat == 11 ||
    c.toNat == 12 || c.toNat == 13

/-- ASCII decimal digit, the regex class \d. -/
def isDigitCh (c : Char) : Bool := 48 ≤ c.toNat && c.toNat ≤ 57

/-- ASCII lower-casing of one character: String.prototype.toLowerCase restricted
to the ASCII range, the only range the engine's keyword catalogue and filters
compare on. -/
def lowerCh (c : Char) : Char :=
  if 65 ≤ c.toNat ∧ c.toNat ≤ 90 then Char.ofNat (c.toNat + 32) else c

def lowerL (l : List Char) : List Char := l.map lowerCh

/-- String.prototype.toLowerCase (ASCII model). -/
def jsLower (s : String) : String := ⟨lowerL s.data⟩

/-- s.replace(/\s+/g, " "): every maximal whitespace run becomes one space. -/
def collapseWs : List Char → List Char
  | [] => []
  | c :: rest =>
    let t := collapseWs rest
    if isWs c then
      match t with
      | d :: _ => if isWs d then t else spC :: t
      | [] => [spC]
    else c :: t

/-- String.prototype.trim (over the \s model above). -/
def trimWsL (l : List Char) : List Char :=
  ((l.dropWhile isWs).reverse.dropWhile isWs).reverse

def jsTrim (s : String) : String := ⟨trimWsL s.data⟩

/-- normalizeSpace from src/app/api/summarize/route.ts: empty when the trimmed
input is empty, else the input with whitespace runs collapsed, trimmed. -/
def normalizeSpace (s : String) : String :=
  if trimWsL s.data = [] then "" else ⟨trimWsL (collapseWs s.data)⟩

/-- String.prototype.includes: needle occurs as a contiguous substring. -/
def containsSub (needle : List Char) : List Char → Bool
  | [] => needle.isEmpty
  | c :: rest => needle.isPrefixOf (c :: rest) || containsSub needle rest

/-- String.prototype.split with a one-character separator (JS "".split gives
[""], and separators at the ends give empty fragments). `acc` is the current
fragment reversed. -/
def splitOnChAux (sep : Char) (acc : List Char) : List Char → List (List Char)
  | [] => [acc.reverse]
  | c :: rest =>
    if c.toNat == sep.toNat then acc.reverse :: splitOnChAux sep [] rest
    else splitOnChAux sep (c :: acc) rest

def splitOnCh (sep : Char) (l : List Char) : List (List Char) := splitOnChAux sep [] l

/-! ## Extractive summarizer (src/app/api/summarize/route.ts) -/

/-- Sentence-terminal punctuation, the regex class [.!?]. -/
def isTermCh (c : Char) : Bool := c.toNat == 46 || c.toNat == 33 || c.toNat == 63

def headIsTerm : List Char → Bool
  | p :: _ => isTermCh p
  | [] => false

/-- body.split(/(?<=[.!?])\s+/): cut the text at every whitespace run that
follows sentence-terminal punctuation. `acc` is the current fragment
reversed; `skip` is true while the rest of a whitespace run is consumed. -/
def splitSentencesAux (skip : Bool) (acc : List Char) : List Char → List (List Char)
  | [] => [acc.reverse]
  | c :: rest =>
    if skip && isWs c then splitSentencesAux true acc rest
    else if isWs c && headIsTerm acc then
      acc.reverse :: splitSentencesAux true [] rest
    else splitSentencesAux false (c :: acc) rest

def splitSentences (l : List Char) : List (List Char) := splitSentencesAux false [] l

/-- The sentence list of a body: split, trim each fragment, drop empty ones
(.map(s => s.trim()).filter(Boolean)). -/
def sentencesOfBody (body : List Char) : List (List Char) :=
  ((splitSentences body).map trimWsL).filter (fun s => !s.isEmpty)

/-- Characters matched by the token regex [a-z']: lowercase ASCII letters and
the apostrophe (code point 39). -/
def isTokCh (c : Char) : Bool := (97 ≤ c.toNat && c.toNat ≤ 122) || c.toNat == 39

/-- s.match(/[a-z']+/g): the maximal runs of token characters, in order.
`acc` is the current run reversed. -/
def tokenizeAux (acc : List Char) : List Char → List (List Char)
  | [] => if acc.isEmpty then [] else [acc.reverse]
  | c :: rest =>
    if isTokCh c then tokenizeAux (c :: acc) rest
    else if acc.isEmpty then tokenizeAux [] rest
    else acc.reverse :: tokenizeAux [] rest

def tokenize (l : List Char) : List (List Char) := tokenizeAux [] l

/-- The stop-word set of the summarizer, exactly the source's backtick list. -/
def stopWords : List (List Char) :=
  ["a", "an", "the", "and", "or", "but", "if", "while", "of", "for", "on",
   "in", "at", "to", "from", "by", "with", "as", "is", "are", "was", "were",
   "be", "been", "being", "this", "that", "those", "these", "it", "its",
   "they", "them", "their", "we", "our", "you", "your", "he", "she", "his",
   "her", "not", "no", "yes", "do", "does", "did"].map String.data

/-- The words entered into the frequency table: tokens of the lower-cased body
that are not stop words and are longer than 2 characters. -/
def keptWords (body : List Char) : List (List Char) :=
  (tokenize (lowerL body)).filter (fun w => !(stopWords.contains w) && 2 < w.length)

/-- freq[w] || 0: how often the word was entered into the frequency table. -/
def freqOf (body : List Char) (w : List Char) : Nat := (keptWords body).count w

/-- A sentence's score: the sum of its tokens' table frequencies. -/
def sentScore (body s : List Char) : Nat :=
  ((tokenize (lowerL s)).map (freqOf body)).sum

/-- The sentences the extractive summarizer emits, in emitted order: all of
them when there are at most maxSentences, else the maxSentences best-scoring
ones (stable sort, modelled by insertionSort as JS Array.prototype.sort is
stable) put back into original order. -/
def summarizeSelected (body : List Char) (maxSentences : Nat) : List (List Char) :=
  let sentences := sentencesOfBody body
  if sentences.length ≤ maxSentences then sentences
  else
    let scored := sentences.enum.map (fun p => (p.1, sentScore body p.2))
    let ranked := insertionSort (fun a b : Nat × Nat => b.2 ≤ a.2) scored
    let top := insertionSort (fun a b : Nat => a ≤ b)
      ((ranked.take maxSentences).map (fun x => x.1))
    top.map (fun i => sentences.getD i [])

/-- summarizeExtractive from src/app/api/summarize/route.ts. -/
def summarizeExtractive (text : String) (maxSentences : Nat := 5) : String :=
  let body := normalizeSpace text
  if body = "" then ""
  else ⟨List.intercalate [spC] (summarizeSelected body.data maxSentences)⟩

/-! ## Lemmas about index selection -/

/-- Reading a list at a strictly increasing list of in-range indices yields a
subsequence of the list. -/
theorem map_getD_sublist {α : Type} (d : α) :
    ∀ (l : List α) (idxs : List Nat), idxs.Pairwise (· < ·) →
      (∀ i ∈ idxs, i < l.length) → (idxs.map (fun i => l.getD i d)) <+ l := by
  intro l
  induction l with
  | nil =>
    intro idxs _ hb
    cases idxs with
    | nil => simp
    | cons i rest => exact absurd (hb i (by simp)) (by simp)
  | cons x l ih =>
    intro idxs hp hb
    have shift : ∀ js : List Nat, js.Pairwise (· < ·) →
        (∀ j ∈ js, 0 < j ∧ j < l.length + 1) →
        (js.map (fun j => (x :: l).getD j d)) <+ l := by
      intro js hjp hjb
      have hrw : js.map (fun j => (x :: l).getD j d) =
          (js.map (fun j => j - 1)).map (fun k => l.getD k d) := by
        rw [List.map_map]
        apply List.map_congr_left
        intro j hj
        obtain ⟨k, rfl⟩ : ∃ k, j = k + 1 := ⟨j - 1, by have := (hjb j hj).1; omega⟩
        simp [List.getD_cons_succ]
      rw [hrw]
      apply ih
      · rw [List.pairwise_map]
        exact hjp.imp_of_mem (fun ha hb' hab => by
          have := (hjb _ ha).1
          omega)
      · intro k hk
        rcases List.mem_map.mp hk with ⟨j, hj, rfl⟩
        have h1 := (hjb j hj).1
        have h2 := (hjb j hj).2
        omega
    cases idxs with
    | nil => simp
    | cons i rest =>
      rcases List.pairwise_cons.mp hp with ⟨hlt, hp'⟩
      cases i with
      | zero =>
        have : ((0 : Nat) :: rest).map (fun j => (x :: l).getD j d) =
            x :: rest.map (fun j => (x :: l).getD j d) := by simp
        rw [this]
        refine Sublist.cons₂ x (shift rest hp' fun j hj => ⟨hlt j hj, ?_⟩)
        have := hb j (List.mem_cons_of_mem _ hj)
        simpa using this
      | succ s =>
        refine Sublist.cons x (shift ((s + 1) :: rest) hp fun j hj => ⟨?_, ?_⟩)
        · rcases List.mem_cons.mp hj with rfl | hj'
          · omega
          · have := hlt j hj'; omega
        · have := hb j hj
          simpa using this

/-! ## Claims C3 and C4: the extractive summarizer -/

/-- C3: for every input text and every maxSentences, the extractive summarizer
selects at most maxSentences sentences, the selection is a subsequence of the
text's sentence list (so the selected sentences appear in the output in their
source order), and the returned string is exactly that selection joined by
single spaces. -/
theorem summarizer_bounded_and_ordered (text : String) (maxSentences : Nat) :
    (summarizeSelected (normalizeSpace text).data maxSentences).length ≤ maxSentences ∧
    (summarizeSelected (normalizeSpace text).data maxSentences) <+
      sentencesOfBody (normalizeSpace text).data ∧
    summarizeExtractive text maxSentences =
      ⟨List.intercalate [spC] (summarizeSelected (normalizeSpace text).data maxSentences)⟩ := by
  refine ⟨?_, ?_, ?_⟩
  · -- at most maxSentences sentences
    unfold summarizeSelected
    by_cases hle : (sentencesOfBody (normalizeSpace text).data).length ≤ maxSentences
    · simp [hle]
    · simp only [if_neg hle]
      have h1 := List.perm_insertionSort (fun a b : Nat => a ≤ b)
        ((((insertionSort (fun a b : Nat × Nat => b.2 ≤ a.2)
          ((sentencesOfBody (normalizeSpace text).data).enum.map
            (fun p => (p.1, sentScore (normalizeSpace text).data p.2)))).take
              maxSentences).map (fun x => x.1)))
      rw [List.length_map, h1.length_eq, List.length_map, List.length_take]
      exact min_le_left _ _
  · -- the selection is a subsequence of the sentence list
    unfold summarizeSelected
    by_cases hle : (sentencesOfBody (normalizeSpace text).data).length ≤ maxSentences
    · simp [hle]
    · simp only [if_neg hle]
      set body := (normalizeSpace text).data
      set sentences := sentencesOfBody body with hsen
      set scored := sentences.enum.map (fun p => (p.1, sentScore body p.2)) with hscored
      set ranked := insertionSort (fun a b : Nat × Nat => b.2 ≤ a.2) scored with hranked
      set pre := (ranked.take maxSentences).map (fun x => x.1) with hpre
      set top := insertionSort (fun a b : Nat => a ≤ b) pre with htop
      have hperm1 : ranked ~ scored := List.perm_insertionSort _ _
      have hperm2 : top ~ pre := List.perm_insertionSort _ _
      have hfst : scored.map (fun x : Nat × Nat => x.1) = List.range sentences.length := by
        rw [hscored, List.map_map]
        have hc : ((fun x : Nat × Nat => x.1) ∘
            fun p : Nat × List Char => (p.1, sentScore body p.2)) = Prod.fst := rfl
        rw [hc, List.enum_map_fst]
      have hprenodup : pre.Nodup := by
        have hsub : pre <+ ranked.map (fun x : Nat × Nat => x.1) :=
          (List.take_sublist _ _).map _
        have : (ranked.map (fun x : Nat × Nat => x.1)).Nodup := by
          rw [(hperm1.map _).nodup_iff, hfst]
          exact List.nodup_range _
        exact this.sublist hsub
      have htopnodup : top.Nodup := hperm2.nodup_iff.mpr hprenodup
      have htopsorted : top.Sorted (· ≤ ·) := List.sorted_insertionSort _ _
      have htoppw : top.Pairwise (· < ·) := by
        exact (htopsorted.and htopnodup).imp (fun h => lt_of_le_of_ne h.1 h.2)
      have htopbound : ∀ i ∈ top, i < sentences.length := by
        intro i hi
        have hi2 : i ∈ pre := hperm2.mem_iff.mp hi
        rcases List.mem_map.mp hi2 with ⟨x, hx, rfl⟩
        have hx2 : x ∈ ranked := (List.take_sublist _ _).mem hx
        have hx3 : x ∈ scored := hperm1.mem_iff.mp hx2
        have : x.1 ∈ scored.map (fun x : Nat × Nat => x.1) := List.mem_map_of_mem _ hx3
        rw [hfst] at this
        exact List.mem_range.mp this
      exact map_getD_sublist [] sentences top htoppw htopbound
  · -- the output equals the joined selection
    unfold summarizeExtractive
    by_cases he : normalizeSpace text = ""
    · rw [if_pos he, he]
      have h0 : summarizeSelected ("" : String).data maxSentences = [] := by
        have hz : sentencesOfBody ("" : String).data = [] := rfl
        simp [summarizeSelected, hz]
      rw [h0]
      rfl
    · rw [if_neg he]

/-- C4: whenever a text splits into at most n sentences, summarizeExtractive
returns exactly those sentences, unmodified and in order, joined by a single
space. -/
theorem summarizer_short_input_identity (text : String) (n : Nat)
    (h : (sentencesOfBody (normalizeSpace text).data).length ≤ n) :
    summarizeExtractive text n =
      ⟨List.intercalate [spC] (sentencesOfBody (normalizeSpace text).data)⟩ := by
  unfold summarizeExtractive
  by_cases he : normalizeSpace text = ""
  · rw [if_pos he, he]
    have hz : sentencesOfBody ("" : String).data = [] := rfl
    rw [hz]
    rfl
  · rw [if_neg he]
    unfold summarizeSelected
    rw [if_pos h]

/-- Witness for C4 at a concrete two-sentence text with n = 5. -/
theorem summarizer_short_input_identity_witness :
    (sentencesOfBody (normalizeSpace "Hi there. All good.").data).length ≤ 5 ∧
    summarizeExtractive "Hi there. All good." 5 = "Hi there. All good." := by
  refine ⟨by decide, ?_⟩
  rw [summarizer_short_input_identity "Hi there. All good." 5 (by decide)]
  decide

/-! ## Thematic classifier (src/app/api/summarize/route.ts, categorize) -/

/-- The fixed catalogue of thematic areas with their weighted keyword lists,
transcribed from the `areas` table of categorize. -/
def areas : List (String × List (String × Nat)) := [
  ("Gender in fisheries and aquaculture", [
    ("fisheries", 3), ("aquaculture", 3), ("fisher", 2), ("fishing", 2),
    ("fish value chain", 4), ("marine", 2), ("coastal", 2), ("seafood", 2)]),
  ("Gender in forestry and agroforestry", [
    ("forestry", 3), ("forest", 2), ("agroforestry", 3), ("woodlot", 3),
    ("non-timber forest", 4), ("ntfp", 3), ("timber", 2), ("deforestation", 2)]),
  ("Gender and livestock", [
    ("livestock", 3), ("pastoral", 3), ("pastoralist", 3), ("herd", 2),
    ("animal health", 4), ("small ruminant", 4), ("cattle", 2), ("goat", 2),
    ("sheep", 2), ("poultry", 2), ("dairy", 2)]),
  ("Gender and plant production and protection", [
    ("plant production", 4), ("crop", 2), ("crop production", 4),
    ("plant protection", 4), ("ipm", 3), ("integrated pest", 4),
    ("seed", 2), ("agronomy", 3), ("plant health", 4), ("pesticide", 2)]),
  ("Gender and innovative and labour-saving technologies", [
    ("innovation", 2), ("innovative", 2), ("technology", 2), ("technologies", 2),
    ("labour-saving", 4), ("labor-saving", 4), ("mechanization", 3),
    ("mechanisation", 3), ("tools", 2), ("equipment", 2), ("digital", 2),
    ("ict", 3), ("mobile", 2), ("app", 2)]),
  ("Gender and land and water", [
    ("land tenure", 4), ("land rights", 4), ("land", 2), ("water", 2),
    ("irrigation", 3), ("watershed", 3), ("water management", 4),
    ("land governance", 4), ("tenure", 3), ("property rights", 3)]),
  ("Gender and climate change, agroecology and biodiversity", [
    ("climate", 2), ("climate change", 4), ("agroecology", 4),
    ("biodiversity", 3), ("mitigation", 3), ("adaptation", 3),
    ("emissions", 3), ("ecosystem", 3), ("nature-based", 4),
    ("carbon", 2), ("greenhouse", 2), ("sustainability", 2)]),
  ("Gender and emergencies and resilience building", [
    ("emergency", 3), ("humanitarian", 3), ("crisis", 3), ("conflict", 3),
    ("resilience", 3), ("shock", 3), ("disaster", 3), ("drm", 4),
    ("risk management", 4), ("recovery", 2), ("relief", 2)]),
  ("Gender-based violence and protection from sexual exploitation and abuse", [
    ("gender-based violence", 4), ("gbv", 4), ("violence", 3),
    ("protection from sexual exploitation and abuse", 5), ("psea", 4),
    ("harassment", 3), ("safeguarding", 3), ("abuse", 3)]),
  ("Gender and rural financial services", [
    ("finance", 2), ("financial services", 4), ("microfinance", 4),
    ("credit", 3), ("loans", 3), ("savings", 3), ("remittances", 3),
    ("banking", 2), ("financial inclusion", 4)]),
  ("Gender and decent rural employment and child labour", [
    ("decent work", 4), ("decent employment", 4), ("rural employment", 4),
    ("child labour", 4), ("child labor", 4), ("occupational safety", 4),
    ("oshea", 4), ("youth employment", 4), ("job", 2), ("workplace", 2)]),
  ("Gender and investment in sustainable agrifood systems", [
    ("investment", 3), ("invest", 3), ("sustainable agrifood", 4),
    ("infrastructure", 3), ("capital", 3), ("financing", 3),
    ("public investment", 4), ("private investment", 4), ("funding", 2)]),
  ("Gender and rural advisory services", [
    ("extension", 3), ("advisory services", 4), ("rural advisory", 4),
    ("farmer field school", 4), ("ffs", 4), ("capacity development", 4),
    ("training", 2), ("education", 2), ("knowledge transfer", 3)]),
  ("Gender-sensitive social protection", [
    ("social protection", 4), ("cash transfer", 4), ("safety net", 4),
    ("social assistance", 4), ("insurance", 3), ("public works", 3),
    ("welfare", 2), ("benefits", 2)]),
  ("Gender-responsive policy making and budgeting", [
    ("policy", 2), ("policies", 2), ("policy-making", 4), ("policy making", 4),
    ("budget", 3), ("budgeting", 3), ("gender-responsive budget", 5),
    ("grb", 4), ("governance", 2), ("regulation", 2), ("legislation", 2),
    ("law", 2), ("legal", 2)]),
  ("Gender statistics and sex-disaggregated data", [
    ("sex-disaggregated", 4), ("sex disaggregated", 4), ("gender statistics", 4),
    ("disaggregated data", 4), ("indicator", 3), ("survey", 3),
    ("census", 3), ("data collection", 4), ("gender data", 4),
    ("statistics", 2), ("metrics", 2)]),
  ("Gender and food security and nutrition", [
    ("food security", 4), ("nutrition", 3), ("malnutrition", 4),
    ("diet", 2), ("food systems", 3), ("household food", 4),
    ("nutritious", 2), ("hunger", 2), ("stunting", 3), ("wasting", 3)]),
  ("Gender and inclusive food systems and value chains", [
    ("inclusive", 2), ("value chain", 4), ("market access", 4),
    ("agrifood", 3), ("food system", 3), ("processing", 3),
    ("marketing", 3), ("inclusive business", 4), ("trade", 2),
    ("supply chain", 3), ("distribution", 2)]),
  ("Gender analysis, gender mainstreaming and the project cycle", [
    ("gender analysis", 4), ("gender mainstreaming", 4), ("mainstreaming", 3),
    ("project cycle", 4), ("logframe", 3), ("logical framework", 4),
    ("design phase", 4), ("implementation phase", 4),
    ("monitoring and evaluation", 4), ("m&e", 3), ("assessment", 2)]),
  ("Gender equality and women's empowerment", [
    ("gender equality", 3), ("women", 1), ("girls", 1), ("empower", 2),
    ("empowerment", 2), ("leadership", 2), ("equity", 2), ("inclusion", 2),
    ("rights", 2), ("equal", 1), ("female", 1)])]

/-- One category's score against the lower-cased text: every keyword found as
a substring adds its weight, plus a flat 1 when the keyword contains a space
(multi-word bonus). -/
def kwScore (text : List Char) (pairs : List (String × Nat)) : Nat :=
  pairs.foldl
    (fun score p =>
      if containsSub p.1.data text then
        score + p.2 + (if containsSub [spC] p.1.data then 1 else 0)
      else score) 0

/-- categorize from src/app/api/summarize/route.ts: lower-case title and
summary, track the best-scoring category under strict improvement, and fall
back to the default category when the winning score is below 2. -/
def categorize (title summary : String) : String :=
  let text := lowerL (title ++ " " ++ summary).data
  let r := areas.foldl
    (fun acc a =>
      let score := kwScore text a.2
      if acc.2 < score then (a.1, score) else acc)
    ("Gender equality and women's empowerment", 0)
  if r.2 < 2 then "Gender equality and women's empowerment" else r.1

/-- The score one catalogue entry gets for a title/summary pair. -/
def areaScore (title summary : String) (a : String × List (String × Nat)) : Nat :=
  kwScore (lowerL (title ++ " " ++ summary).data) a.2

/-- The highest score over all catalogue categories. -/
def maxAreaScore (title summary : String) : Nat :=
  (areas.map (areaScore title summary)).foldr max 0

/-! ## The best-score fold -/

section BestFold

variable {A : Type} (label : A → String) (score : A → Nat)

/-- One step of the classifier's loop: strict improvement replaces the best. -/
def bestStep (acc : String × Nat) (a : A) : String × Nat :=
  if acc.2 < score a then (label a, score a) else acc

/-- The maximal score over a list of entries. -/
def maxScoreOf (L : List A) : Nat := (L.map score).foldr max 0

theorem maxScoreOf_cons (a : A) (L : List A) :
    maxScoreOf score (a :: L) = max (score a) (maxScoreOf score L) := rfl

/-- What the classifier's fold computes: its score component is the maximum of
the starting score and all entry scores; when no entry beats the start the
accumulator is returned unchanged; and when some entry does, the label is the
label of the first entry attaining the maximal score. -/
theorem bestFold_spec (L : List A) : ∀ acc : String × Nat,
    (L.foldl (bestStep label score) acc).2 = max acc.2 (maxScoreOf score L) ∧
    (maxScoreOf score L ≤ acc.2 → L.foldl (bestStep label score) acc = acc) ∧
    (acc.2 < maxScoreOf score L →
      (L.foldl (bestStep label score) acc).1 =
        (((L.find? fun a => decide (maxScoreOf score L ≤ score a)).map label).getD "")) := by
  induction L with
  | nil =>
    intro acc
    refine ⟨by simp [maxScoreOf], fun _ => by simp, fun h => ?_⟩
    simp [maxScoreOf] at h
  | cons a L ih =>
    intro acc
    rw [List.foldl_cons, maxScoreOf_cons]
    by_cases hc : acc.2 < score a
    · have hstep : bestStep label score acc a = (label a, score a) := by
        simp [bestStep, hc]
      rw [hstep]
      obtain ⟨ih1, ih2, ih3⟩ := ih (label a, score a)
      refine ⟨by rw [ih1]; simp; omega, fun h => by omega, fun _ => ?_⟩
      by_cases hm : maxScoreOf score L ≤ score a
      · have hmax : max (score a) (maxScoreOf score L) = score a := by omega
        rw [hmax, List.find?_cons]
        have hpa : decide (score a ≤ score a) = true := by simp
        rw [hpa]
        simp [ih2 hm]
      · have hmax : max (score a) (maxScoreOf score L) = maxScoreOf score L := by omega
        rw [hmax, List.find?_cons]
        have hpa : decide (maxScoreOf score L ≤ score a) = false := by
          simp; omega
        rw [hpa]
        exact ih3 (by omega)
    · have hstep : bestStep label score acc a = acc := by
        simp [bestStep, hc]
      rw [hstep]
      obtain ⟨ih1, ih2, ih3⟩ := ih acc
      refine ⟨by rw [ih1]; omega, fun h => ih2 (by omega), fun h => ?_⟩
      have hm : acc.2 < maxScoreOf score L := by omega
      have hmax : max (score a) (maxScoreOf score L) = maxScoreOf score L := by omega
      rw [hmax, List.find?_cons]
      have hpa : decide (maxScoreOf score L ≤ score a) = false := by
        simp; omega
      rw [hpa]
      exact ih3 hm

end BestFold

/-- A positive right fold of max over a list is attained by some element. -/
theorem foldr_max_mem (l : List Nat) (h : 0 < l.foldr max 0) : l.foldr max 0 ∈ l := by
  induction l with
  | nil => simp at h
  | cons x l ih =>
    rw [List.foldr_cons] at h ⊢
    rcases Nat.le_total (l.foldr max 0) x with hle | hle
    · rw [Nat.max_eq_left hle]
      exact List.mem_cons_self x l
    · rw [Nat.max_eq_right hle] at h ⊢
      exact List.mem_cons_of_mem x (ih h)

/-! ## Claims C1 and C2: the thematic classifier -/

/-- The classifier's fold is the generic best-score fold. -/
theorem categorize_eq_bestFold (title summary : String) :
    categorize title summary =
      (if (areas.foldl
            (bestStep Prod.fst (areaScore title summary))
            ("Gender equality and women's empowerment", 0)).2 < 2 then
        "Gender equality and women's empowerment"
      else (areas.foldl
            (bestStep Prod.fst (areaScore title summary))
            ("Gender equality and women's empowerment", 0)).1) := rfl

/-- C1: whenever the highest keyword score over all catalogue categories is
below the confidence floor of 2, categorize returns the catalogue's default
category instead of the nominal winner. -/
theorem classifier_confidence_floor (title summary : String)
    (h : maxAreaScore title summary < 2) :
    categorize title summary = "Gender equality and women's empowerment" := by
  rw [categorize_eq_bestFold]
  have hspec := (bestFold_spec Prod.fst (areaScore title summary) areas
    ("Gender equality and women's empowerment", 0)).1
  have hm : maxScoreOf (areaScore title summary) areas = maxAreaScore title summary := rfl
  rw [if_pos (by rw [hspec, hm]; simpa using h)]

/-- Witness for C1: a text whose best category score is 1, below the floor. -/
theorem classifier_confidence_floor_witness :
    maxAreaScore "women" "" < 2 ∧
    categorize "women" "" = "Gender equality and women's empowerment" :=
  ⟨by decide, classifier_confidence_floor "women" "" (by decide)⟩

/-- Counterexample to C2 as stated: on this text, the catalogue entries at
positions 1 (forestry) and 2 (livestock) score exactly equal (2 and 2), yet
the classifier returns neither — a third category (fisheries, score 8) wins —
so a tie between two categories does not by itself make the earlier-declared
one the returned category. -/
theorem classifier_tiebreak_counterexample :
    areaScore "fisheries aquaculture forest herd" "" (areas.getD 1 ("", [])) =
      areaScore "fisheries aquaculture forest herd" "" (areas.getD 2 ("", [])) ∧
    (areas.getD 1 ("", [])).1 = "Gender in forestry and agroforestry" ∧
    (areas.getD 2 ("", [])).1 = "Gender and livestock" ∧
    categorize "fisheries aquaculture forest herd" "" =
      "Gender in fisheries and aquaculture" ∧
    ("Gender in fisheries and aquaculture" ≠ "Gender in forestry and agroforestry") := by
  refine ⟨by decide, by decide, by decide, by decide, by decide⟩

/-- C2 (amended): when the winning score clears the confidence floor, the
returned category is the first-declared catalogue entry attaining the maximal
score, so of two categories tied at the winning score the earlier-declared
one wins; and the classifier is a pure function, so repeated invocations
agree. -/
theorem classifier_first_max_wins (title summary : String)
    (h : 2 ≤ maxAreaScore title summary) :
    (areas.find? fun a =>
        decide (maxAreaScore title summary ≤ areaScore title summary a)).map Prod.fst
      = some (categorize title summary) := by
  obtain ⟨h1, _, h3⟩ := bestFold_spec Prod.fst (areaScore title summary) areas
    ("Gender equality and women's empowerment", 0)
  have hm : maxScoreOf (areaScore title summary) areas = maxAreaScore title summary := rfl
  rw [hm] at h1 h3
  have hfold2 : (areas.foldl
      (bestStep Prod.fst (areaScore title summary))
      ("Gender equality and women's empowerment", 0)).2 = maxAreaScore title summary := by
    rw [h1]; simp
  have hsome : (areas.find? fun a =>
      decide (maxAreaScore title summary ≤ areaScore title summary a)).isSome := by
    have hmem : maxAreaScore title summary ∈ areas.map (areaScore title summary) := by
      have hdef : maxAreaScore title summary =
          (areas.map (areaScore title summary)).foldr max 0 := rfl
      rw [hdef]
      exact foldr_max_mem _ (by omega)
    rcases List.mem_map.mp hmem with ⟨a, ha, hsc⟩
    exact List.find?_isSome.mpr ⟨a, ha, by simp [hsc]⟩
  rcases Option.isSome_iff_exists.mp hsome with ⟨b, hb⟩
  rw [categorize_eq_bestFold, if_neg (by omega), h3 (by simp; omega), hb]
  simp

/-- Witness for C2 (amended): on "fisheries" the maximal score is 5 ≥ 2 and
the first entry attaining it is the fisheries category. -/
theorem classifier_first_max_wins_witness :
    2 ≤ maxAreaScore "fisheries" "" ∧
    (areas.find? fun a =>
        decide (maxAreaScore "fisheries" "" ≤ areaScore "fisheries" "" a)).map Prod.fst
      = some (categorize "fisheries" "") :=
  ⟨by decide, classifier_first_max_wins "fisheries" "" (by decide)⟩

/-! ## Content records and the two GET routes

A record as the routes read it: every field is coerced with String(x || ''),
so absent fields are the empty string. The chart route additionally reads
year and month, whose String(x || '') coercion is what the model stores. -/

structure Row where
  section' : String := ""
  category : String := ""
  title : String := ""
  date : String := ""
  date_iso : String := ""
  url : String := ""
  summary : String := ""
  year : String := ""
  month : String := ""
  deriving DecidableEq, Repr

/-- The regex test /^\d+$/: non-empty, all decimal digits. -/
def isDigits (l : List Char) : Bool := !l.isEmpty && l.all isDigitCh

/-- parseInt on a string of decimal digits. -/
def digitsToNat (l : List Char) : Nat := l.foldl (fun n c => 10 * n + (c.toNat - 48)) 0

/-- String.prototype.padStart(n, "0"). -/
def padZeros (s : List Char) (n : Nat) : List Char :=
  List.replicate (n - s.length) (Char.ofNat 48) ++ s

/-- toYmLabel from the chart route: prefer the first two dash-separated
components of the trimmed date_iso (both non-empty and the trimmed string
non-empty), else zero-padded integer year and month, else "Unknown". -/
def toYmLabel (r : Row) : String :=
  if !(trimWsL r.date_iso.data).isEmpty &&
      !((splitOnCh dashC (trimWsL r.date_iso.data)).getD 0 []).isEmpty &&
      !((splitOnCh dashC (trimWsL r.date_iso.data)).getD 1 []).isEmpty then
    ⟨(splitOnCh dashC (trimWsL r.date_iso.data)).getD 0 [] ++
      dashC :: (splitOnCh dashC (trimWsL r.date_iso.data)).getD 1 []⟩
  else if isDigits (trimWsL r.year.data) && isDigits (trimWsL r.month.data) then
    ⟨padZeros (Nat.repr (digitsToNat (trimWsL r.year.data))).data 4 ++
      dashC :: padZeros (Nat.repr (digitsToNat (trimWsL r.month.data))).data 2⟩
  else "Unknown"

/-- The year-month label the items route uses for range filtering:
(dateIso || "").slice(0, 7) || "Unknown" — no year/month fallback. -/
def itemsYmLabel (dateIso : String) : String :=
  let l := dateIso.data.take 7
  if l.isEmpty then "Unknown" else ⟨l⟩

/-- s.replace("-", ""): remove the first dash only. -/
def removeFirstDash : List Char → List Char
  | [] => []
  | c :: rest => if c.toNat == 45 then rest else c :: removeFirstDash rest

/-- JS string comparison a < b: lexicographic on code units. -/
def ltL : List Char → List Char → Bool
  | [], [] => false
  | [], _ :: _ => true
  | _ :: _, [] => false
  | a :: as_, b :: bs => if a.toNat < b.toNat then true
      else if b.toNat < a.toNat then false else ltL as_ bs

/-- withinYmRange, identical in both routes once the label is computed: no
range means pass; "Unknown" fails any active range; else compare the labels
with the first dash removed as strings. -/
def withinYmRange (fStart fEnd : String) (lbl : String) : Bool :=
  if fStart.data.isEmpty && fEnd.data.isEmpty then true
  else if lbl = "Unknown" then false
  else if !fStart.data.isEmpty &&
      ltL (removeFirstDash lbl.data) (removeFirstDash fStart.data) then false
  else if !fEnd.data.isEmpty &&
      ltL (removeFirstDash fEnd.data) (removeFirstDash lbl.data) then false
  else true

/-- The raw query parameters of either route (searchParams.get results:
none models an absent parameter). -/
structure Query where
  sectionP : Option String := none
  categoryP : Option String := none
  qP : Option String := none
  startP : Option String := none
  endP : Option String := none
  deriving DecidableEq

/-- get(name) || "". -/
def getOr (o : Option String) : String := o.getD ""

/-- The effective section filter: trimmed, lower-cased, "all" meaning none. -/
def fSectionOf (qy : Query) : String :=
  let v := jsLower (jsTrim (getOr qy.sectionP))
  if v = "all" then "" else v

/-- The effective category filter: trimmed, lower-cased, "all" meaning none. -/
def fCategoryOf (qy : Query) : String :=
  let v := jsLower (jsTrim (getOr qy.categoryP))
  if v = "all" then "" else v

/-- The effective text query: trimmed and lower-cased. -/
def fQOf (qy : Query) : String := jsLower (jsTrim (getOr qy.qP))

/-- The effective range start: trimmed. -/
def fStartOf (qy : Query) : String := jsTrim (getOr qy.startP)

/-- The effective range end: trimmed. -/
def fEndOf (qy : Query) : String := jsTrim (getOr qy.endP)

/-- The section filter's test, common to both routes. -/
def sectionPass (qy : Query) (r : Row) : Bool :=
  (fSectionOf qy).data.isEmpty || jsLower (jsTrim r.section') == fSectionOf qy

/-- The category filter's test, common to both routes. -/
def categoryPass (qy : Query) (r : Row) : Bool :=
  (fCategoryOf qy).data.isEmpty || jsLower (jsTrim r.category) == fCategoryOf qy

/-- The chart route's text query test: substring of the lower-cased
title-space-summary blob. -/
def chartQPass (qy : Query) (r : Row) : Bool :=
  (fQOf qy).data.isEmpty ||
    containsSub (fQOf qy).data (lowerL (r.title ++ " " ++ r.summary).data)

/-- The items route's text query test: substring of the lower-cased title
only. -/
def itemsQPass (qy : Query) (r : Row) : Bool :=
  (fQOf qy).data.isEmpty || containsSub (fQOf qy).data (lowerL r.title.data)

/-- The chart route's range test, over toYmLabel. -/
def chartYmPass (qy : Query) (r : Row) : Bool :=
  withinYmRange (fStartOf qy) (fEndOf qy) (toYmLabel r)

/-- The items route's range test, over the slice-based label. -/
def itemsYmPass (qy : Query) (r : Row) : Bool :=
  withinYmRange (fStartOf qy) (fEndOf qy) (itemsYmLabel r.date_iso)

/-- The chart route's filter predicate (the early-return chain as a
conjunction). -/
def chartKeep (qy : Query) (r : Row) : Bool :=
  sectionPass qy r && categoryPass qy r && chartQPass qy r && chartYmPass qy r

/-- The items route's filter predicate. -/
def itemsKeep (qy : Query) (r : Row) : Bool :=
  sectionPass qy r && categoryPass qy r && itemsQPass qy r && itemsYmPass qy r

/-! ## Record merger (tryRead and the dataset loop of both routes) -/

/-- What loading one configured dataset source can come to: the read or the
JSON parse throws (loadError), or it parses with an items field that is an
array (payload (some arr)) or missing/non-array (payload none). -/
inductive SourceOutcome where
  | loadError : SourceOutcome
  | payload : Option (List Row) → SourceOutcome
  deriving DecidableEq

/-- tryRead: null on any exception, else the items array, with a
missing/non-array items treated as zero records. -/
def tryRead : SourceOutcome → Option (List Row)
  | .loadError => none
  | .payload none => some []
  | .payload (some arr) => some arr

/-- The default-configuration merge loop: for each source in order, append
its rows when tryRead succeeded, skip it otherwise. -/
def mergeRows (sources : List SourceOutcome) : List Row :=
  sources.foldl
    (fun rows s =>
      match tryRead s with
      | some arr => rows ++ arr
      | none => rows) []

/-! ## JS numbers: parseInt, Math.min/max and Array.prototype.slice -/

/-- parseInt(s, 10): skip leading whitespace, an optional sign, then the
maximal run of decimal digits; NaN (none) when that run is empty. -/
def parseIntJs (s : String) : Option Int :=
  let t := s.data.dropWhile isWs
  let signed : Int × List Char :=
    match t with
    | c :: rest =>
      if c.toNat == 45 then (-1, rest)
      else if c.toNat == 43 then (1, rest) else (1, t)
    | [] => (1, [])
  let digits := signed.2.takeWhile isDigitCh
  if digits.isEmpty then none else some (signed.1 * (digitsToNat digits : Int))

/-- searchParams.get(name) || dflt: the default replaces an absent or empty
parameter. -/
def rawOr (raw : Option String) (dflt : String) : String :=
  match raw with
  | none => dflt
  | some s => if s.data.isEmpty then dflt else s

/-- Math.max(1, Math.min(500, parseInt(limit || "20", 10))): NaN propagates. -/
def limitOf (raw : Option String) : Option Int :=
  (parseIntJs (rawOr raw "20")).map (fun n => max 1 (min 500 n))

/-- Math.max(0, parseInt(offset || "0", 10)): NaN propagates. -/
def offsetOf (raw : Option String) : Option Int :=
  (parseIntJs (rawOr raw "0")).map (fun n => max 0 n)

/-- offset + limit on JS numbers: NaN propagates. -/
def optAdd : Option Int → Option Int → Option Int
  | some a, some b => some (a + b)
  | _, _ => none

/-- One slice argument resolved against a length, per ToIntegerOrInfinity and
the relative-index rule of Array.prototype.slice: NaN becomes 0, a negative
index counts from the end, and indices clamp to [0, len]. -/
def jsSliceIdx (len : Nat) (v : Option Int) : Nat :=
  match v with
  | none => 0
  | some i => if i < 0 then (max ((len : Int) + i) 0).toNat else min i.toNat len

/-- Array.prototype.slice(s, e). -/
def jsSlice {α : Type} (xs : List α) (s e : Option Int) : List α :=
  (xs.take (jsSliceIdx xs.length e)).drop (jsSliceIdx xs.length s)

/-! ## The items route's listing pipeline -/

/-- The numeric date key the listing sorts descending by: date_iso with every
dash removed, parseInt with "0" substituted for an empty string. -/
def dateKeyOf (r : Row) : Option Int :=
  let ai := r.date_iso.data.filter (fun c => !(c.toNat == 45))
  parseIntJs (if ai.isEmpty then "0" else ⟨ai⟩)

/-- localeCompare on lower-cased titles, modelled as code-unit comparison. -/
def titleCmp (a b : Row) : Int :=
  let ta := lowerL a.title.data
  let tb := lowerL b.title.data
  if ltL ta tb then -1 else if ltL tb ta then 1 else 0

/-- The listing sort comparator: descending numeric date key, ties broken by
title; a NaN date key makes the comparator NaN, which Array.prototype.sort
treats as 0 (keep the stable order). -/
def rowCmp (a b : Row) : Int :=
  match dateKeyOf a, dateKeyOf b with
  | some an, some bn => if an ≠ bn then bn - an else titleCmp a b
  | _, _ => 0

/-- The filtered rows in listing sort order (stable sort, modelled by
insertionSort). -/
def sortedFiltered (rows : List Row) (qy : Query) : List Row :=
  insertionSort (fun a b => rowCmp a b ≤ 0) (rows.filter (itemsKeep qy))

/-- The page of rows the items route returns:
sorted.slice(offset, offset + limit). -/
def itemsPage (rows : List Row) (qy : Query) (limitRaw offsetRaw : Option String) :
    List Row :=
  jsSlice (sortedFiltered rows qy) (offsetOf offsetRaw)
    (optAdd (offsetOf offsetRaw) (limitOf limitRaw))

/-- The items route's response: total is the full filtered count, items the
page slice; an empty corpus short-circuits to (0, []). -/
def itemsResponse (rows : List Row) (qy : Query) (limitRaw offsetRaw : Option String) :
    Nat × List Row :=
  if rows.isEmpty then (0, [])
  else ((rows.filter (itemsKeep qy)).length, itemsPage rows qy limitRaw offsetRaw)

/-! ## The chart route's aggregation pipeline -/

/-- Keep first occurrences, dropping later duplicates: the insertion-order
view of a JS Set or Map key set. `seen` holds the keys already emitted. -/
def firstDedupAux {α : Type} [BEq α] : List α → List α → List α
  | [], _ => []
  | x :: xs, seen =>
    if seen.contains x then firstDedupAux xs seen
    else x :: firstDedupAux xs (seen ++ [x])

def firstDedup {α : Type} [BEq α] (l : List α) : List α := firstDedupAux l []

/-- JS default Array.prototype.sort comparator for strings (code-unit order),
as the non-strict relation a stable sort uses. -/
def strLe (a b : String) : Bool := !ltL b.data a.data

/-- The numeric key sortYmLabels compares by: "Unknown" is 0, anything else
parseInt of the label with its first dash removed (NaN possible). -/
def ymSortKey (s : String) : Option Int :=
  if s = "Unknown" then some 0 else parseIntJs ⟨removeFirstDash s.data⟩

/-- sortYmLabels' comparator as a non-strict relation: ka - kb ≤ 0, with a
NaN comparator value treated as 0 by Array.prototype.sort. -/
def ymLe (a b : String) : Bool :=
  match ymSortKey a, ymSortKey b with
  | some ka, some kb => ka ≤ kb
  | _, _ => true

/-- sortYmLabels from the chart route: dedup (insertion order), then sort by
the numeric key. -/
def sortYmLabels (labels : List String) : List String :=
  insertionSort (fun a b => ymLe a b = true) (firstDedup labels)

/-- (r.category || "Uncategorized").trim() || "Uncategorized". -/
def catLabel (r : Row) : String :=
  let c := jsTrim r.category
  if c.data.isEmpty then "Uncategorized" else c

/-- (r.section || "unknown").trim() || "unknown". -/
def secLabel (r : Row) : String :=
  let s := jsTrim r.section'
  if s.data.isEmpty then "unknown" else s

/-- A Map of counts keyed by a label, listed in insertion order: each distinct
label with how many filtered rows carry it. -/
def countsByLabel (labels : List String) : List (String × Nat) :=
  (firstDedup labels).map (fun l => (l, labels.count l))

/-- Array.from(map.entries()).sort((a, b) => b[1] - a[1]): descending by
count, stable. -/
def sortByCountDesc (pairs : List (String × Nat)) : List (String × Nat) :=
  insertionSort (fun a b => b.2 ≤ a.2) pairs

/-- The facet list: distinct trimmed non-empty values over the full corpus,
sorted with the default string comparator. -/
def facetValues (get : Row → String) (rows : List Row) : List String :=
  insertionSort (fun a b => strLe a b = true)
    (firstDedup ((rows.map (fun r => jsTrim (get r))).filter (fun s => !s.data.isEmpty)))

/-- The chart route's aggregation response. -/
structure AggResponse where
  total : Nat
  by_category : List (String × Nat)
  by_section : List (String × Nat)
  ym_labels : List String
  ym_counts : List Nat
  series_sections : List String
  series : List (String × List Nat)
  facets_sections : List String
  facets_categories : List String
  deriving DecidableEq

/-- The chart route's GET, given the merged corpus and the query: an empty
corpus short-circuits to the all-empty response; otherwise facets come from
the unfiltered corpus and every grouping from the filtered one. -/
def aggResponse (rows : List Row) (qy : Query) : AggResponse :=
  if rows.isEmpty then
    ⟨0, [], [], [], [], [], [], [], []⟩
  else
    let filtered := rows.filter (chartKeep qy)
    let catLabels := filtered.map catLabel
    let secLabels := filtered.map secLabel
    let ymList := filtered.map toYmLabel
    let ymLabels := sortYmLabels ymList
    let sectionKeys := insertionSort (fun a b => strLe a b = true)
      (firstDedup secLabels)
    { total := filtered.length
      by_category := sortByCountDesc (countsByLabel catLabels)
      by_section := sortByCountDesc (countsByLabel secLabels)
      ym_labels := ymLabels
      ym_counts := ymLabels.map (fun l => ymList.count l)
      series_sections := sectionKeys
      series := sectionKeys.map (fun s =>
        (s, ymLabels.map (fun l =>
          (filtered.filter (fun r => secLabel r == s && toYmLabel r == l)).length)))
      facets_sections := facetValues (fun r => r.section') rows
      facets_categories := facetValues (fun r => r.category) rows }

/-! ## Substring lemmas -/

/-- A substring of a string is a substring of any right extension of it. -/
theorem containsSub_append_right (q r : List Char) :
    ∀ t : List Char, containsSub q t = true → containsSub q (t ++ r) = true := by
  intro t
  induction t with
  | nil =>
    intro h
    have hq : q = [] := by simpa [containsSub, List.isEmpty_iff] using h
    subst hq
    cases r with
    | nil => rfl
    | cons c rest => simp [containsSub]
  | cons c t ih =>
    intro h
    have h' : (q.isPrefixOf (c :: t) || containsSub q t) = true := h
    rcases Bool.or_eq_true_iff.mp h' with hpre | hrest
    · rcases List.isPrefixOf_iff_prefix.mp hpre with ⟨s, hs⟩
      have hp2 : q.isPrefixOf (c :: (t ++ r)) = true := by
        rw [List.isPrefixOf_iff_prefix]
        exact ⟨s ++ r, by rw [← List.append_assoc, hs, List.cons_append]⟩
      show (q.isPrefixOf (c :: (t ++ r)) || containsSub q (t ++ r)) = true
      rw [hp2, Bool.true_or]
    · show (q.isPrefixOf (c :: (t ++ r)) || containsSub q (t ++ r)) = true
      rw [ih hrest, Bool.or_true]

/-! ## Claim C5: the text query filter -/

/-- C5: in either query mode the filter is the conjunction of the four
individual tests, and a record is kept with an active text query only if the
query occurs (case-insensitively) in the record's title concatenated (with
the routes' separating space) with its summary — in the listing mode the
match is tested against the title alone, which that blob extends. -/
theorem filter_query_only_if (qy : Query) (r : Row) :
    (itemsKeep qy r =
      (sectionPass qy r && categoryPass qy r && itemsQPass qy r && itemsYmPass qy r)) ∧
    (chartKeep qy r =
      (sectionPass qy r && categoryPass qy r && chartQPass qy r && chartYmPass qy r)) ∧
    ((itemsKeep qy r = true ∨ chartKeep qy r = true) → (fQOf qy).data ≠ [] →
      containsSub (fQOf qy).data (lowerL (r.title ++ " " ++ r.summary).data) = true) := by
  refine ⟨rfl, rfl, fun hkeep hq => ?_⟩
  have hqe : (fQOf qy).data.isEmpty = false := by simpa [List.isEmpty_iff] using hq
  rcases hkeep with hk | hk
  · have hqp : itemsQPass qy r = true := by
      have := hk
      simp only [itemsKeep, Bool.and_eq_true] at this
      exact this.1.2
    have hsub : containsSub (fQOf qy).data (lowerL r.title.data) = true := by
      simpa [itemsQPass, hqe] using hqp
    have hdata : (r.title ++ " " ++ r.summary).data =
        r.title.data ++ (" " ++ r.summary).data := by
      simp [String.data_append]
    rw [hdata]
    unfold lowerL
    rw [List.map_append]
    exact containsSub_append_right _ _ _ hsub
  · have hqp : chartQPass qy r = true := by
      have := hk
      simp only [chartKeep, Bool.and_eq_true] at this
      exact this.1.2
    simpa [chartQPass, hqe] using hqp

/-- Witness for C5: a concrete record kept by the listing filter under an
active query, whose query occurs in the title-summary blob. -/
theorem filter_query_only_if_witness :
    itemsKeep { qP := some "water" } { title := "Land and Water" } = true ∧
    containsSub (fQOf { qP := some "water" }).data
      (lowerL ("Land and Water" ++ " " ++ "").data) = true :=
  ⟨by decide,
    (filter_query_only_if { qP := some "water" } { title := "Land and Water" }).2.2
      (Or.inl (by decide)) (by decide)⟩

/-! ## Claim C6: year-month derivation -/

theorem isWs_of_isDigitCh {c : Char} (h : isDigitCh c = true) : isWs c = false := by
  simp only [isDigitCh, Bool.and_eq_true, decide_eq_true_eq] at h
  simp only [isWs, Bool.or_eq_false_iff, beq_eq_false_iff_ne, ne_eq]
  omega

theorem ne_dash_of_isDigitCh {c : Char} (h : isDigitCh c = true) :
    (c.toNat == dashC.toNat) = false := by
  simp only [isDigitCh, Bool.and_eq_true, decide_eq_true_eq] at h
  have : dashC.toNat = 45 := by decide
  simp only [this, beq_eq_false_iff_ne, ne_eq]
  omega

/-- Counterexample to C6: on a record carrying only integer year and month,
the aggregate mode derives "2023-07" while the listing mode's label is
"Unknown", so the two modes do not share one derivation; observably, a
2023 range filter keeps the record in aggregate mode and drops it in
listing mode. -/
theorem ym_derivation_counterexample :
    toYmLabel { year := "2023", month := "7" } = "2023-07" ∧
    itemsYmLabel (Row.date_iso { year := "2023", month := "7" }) = "Unknown" ∧
    chartKeep { startP := some "2023-01", endP := some "2023-12" }
      { year := "2023", month := "7" } = true ∧
    itemsKeep { startP := some "2023-01", endP := some "2023-12" }
      { year := "2023", month := "7" } = false := by
  refine ⟨by decide, by decide, by decide, by decide⟩

/-- C6 (amended): the two query modes derive the year-month label by
different functions. In aggregate mode, toYmLabel prefers the first two
dash-separated components of date_iso, falls back to the zero-padded integer
year and month fields, and is "Unknown" only when neither works; in listing
mode the label is date_iso's first seven characters with no year/month
fallback ("Unknown" when date_iso is empty). On a well-formed
YYYY-MM-DD date_iso both modes agree on the YYYY-MM prefix. -/
theorem ym_derivation_amended :
    (∀ (r : Row) (c1 c2 c3 c4 c5 c6 c7 c8 : Char),
      isDigitCh c1 = true → isDigitCh c2 = true → isDigitCh c3 = true →
      isDigitCh c4 = true → isDigitCh c5 = true → isDigitCh c6 = true →
      isDigitCh c7 = true → isDigitCh c8 = true →
      r.date_iso.data = [c1, c2, c3, c4, dashC, c5, c6, dashC, c7, c8] →
      toYmLabel r = ⟨[c1, c2, c3, c4, dashC, c5, c6]⟩ ∧
      itemsYmLabel r.date_iso = ⟨[c1, c2, c3, c4, dashC, c5, c6]⟩) ∧
    (∀ r : Row, r.date_iso = "" →
      isDigits (trimWsL r.year.data) = true → isDigits (trimWsL r.month.data) = true →
      toYmLabel r = ⟨padZeros (Nat.repr (digitsToNat (trimWsL r.year.data))).data 4 ++
        dashC :: padZeros (Nat.repr (digitsToNat (trimWsL r.month.data))).data 2⟩ ∧
      itemsYmLabel r.date_iso = "Unknown") ∧
    (∀ r : Row, r.date_iso = "" →
      (isDigits (trimWsL r.year.data) && isDigits (trimWsL r.month.data)) = false →
      toYmLabel r = "Unknown" ∧ itemsYmLabel r.date_iso = "Unknown") := by
  refine ⟨?_, ?_, ?_⟩
  · intro r c1 c2 c3 c4 c5 c6 c7 c8 h1 h2 h3 h4 h5 h6 h7 h8 hdata
    have hw1 := isWs_of_isDigitCh h1
    have hw8 := isWs_of_isDigitCh h8
    have hd1 := ne_dash_of_isDigitCh h1
    have hd2 := ne_dash_of_isDigitCh h2
    have hd3 := ne_dash_of_isDigitCh h3
    have hd4 := ne_dash_of_isDigitCh h4
    have hd5 := ne_dash_of_isDigitCh h5
    have hd6 := ne_dash_of_isDigitCh h6
    have hd7 := ne_dash_of_isDigitCh h7
    have hd8 := ne_dash_of_isDigitCh h8
    have hdash : (dashC.toNat == dashC.toNat) = true := by decide
    have htrim : trimWsL [c1, c2, c3, c4, dashC, c5, c6, dashC, c7, c8] =
        [c1, c2, c3, c4, dashC, c5, c6, dashC, c7, c8] := by
      simp [trimWsL, List.dropWhile, hw1, hw8]
    have hsplit : splitOnCh dashC [c1, c2, c3, c4, dashC, c5, c6, dashC, c7, c8] =
        [[c1, c2, c3, c4], [c5, c6], [c7, c8]] := by
      simp [splitOnCh, splitOnChAux, hd1, hd2, hd3, hd4, hd5, hd6, hd7, hd8, hdash]
    constructor
    · unfold toYmLabel
      rw [hdata, htrim, hsplit]
      simp
    · unfold itemsYmLabel
      rw [hdata]
      simp
  · intro r hdi hy hm
    have hitems : itemsYmLabel r.date_iso = "Unknown" := by
      rw [hdi]; rfl
    refine ⟨?_, hitems⟩
    unfold toYmLabel
    rw [hdi]
    simp only [show trimWsL ("" : String).data = ([] : List Char) from rfl,
      List.isEmpty_nil, Bool.not_true, Bool.false_and, Bool.false_eq_true, if_false,
      hy, hm, Bool.and_self, if_true]
  · intro r hdi hfail
    have hitems : itemsYmLabel r.date_iso = "Unknown" := by
      rw [hdi]; rfl
    refine ⟨?_, hitems⟩
    unfold toYmLabel
    rw [hdi]
    simp only [show trimWsL ("" : String).data = ([] : List Char) from rfl,
      List.isEmpty_nil, Bool.not_true, Bool.false_and, Bool.false_eq_true, if_false,
      hfail]

/-- Witness for C6 (amended) at the spec's own example records. -/
theorem ym_derivation_amended_witness :
    toYmLabel { date_iso := "2024-03-15" } = "2024-03" ∧
    itemsYmLabel "2024-03-15" = "2024-03" ∧
    toYmLabel { year := "2023", month := "7" } = "2023-07" ∧
    itemsYmLabel "" = "Unknown" ∧
    toYmLabel {} = "Unknown" := by
  have h1 := ym_derivation_amended.1 { date_iso := "2024-03-15" }
    '2' '0' '2' '4' '0' '3' '1' '5' (by decide) (by decide) (by decide) (by decide)
    (by decide) (by decide) (by decide) (by decide) (by decide)
  have h2 := ym_derivation_amended.2.1 { year := "2023", month := "7" }
    rfl (by decide) (by decide)
  have h3 := ym_derivation_amended.2.2 {} rfl (by decide)
  have h1b : itemsYmLabel "2024-03-15" =
      ({ data := ['2', '0', '2', '4', dashC, '0', '3'] } : String) := h1.2
  refine ⟨?_, ?_, ?_, by decide, h3.1⟩
  · rw [h1.1]; decide
  · rw [h1b]; decide
  · rw [h2.1]; decide

/-! ## Claim C7: the record merger -/

/-- The merge fold, started from any prefix, appends the concatenation of the
successfully read sources. -/
theorem mergeRows_foldl (sources : List SourceOutcome) :
    ∀ acc : List Row,
      sources.foldl
        (fun rows s =>
          match tryRead s with
          | some arr => rows ++ arr
          | none => rows) acc = acc ++ (sources.filterMap tryRead).flatten := by
  induction sources with
  | nil => intro acc; simp
  | cons s sources ih =>
    intro acc
    rw [List.foldl_cons, List.filterMap_cons]
    cases htr : tryRead s with
    | none => rw [ih acc]
    | some arr => rw [ih (acc ++ arr)]; simp

/-- C7: a source that fails to load or parse is skipped without aborting the
merge, and the corpus is exactly the concatenation of the successfully read
sources' item arrays in configured order; in particular sources of sizes 2,
failed, 3 yield exactly the 5 records of the two good sources, in order. -/
theorem merger_concat_skips_failures :
    (∀ sources : List SourceOutcome,
      mergeRows sources = (sources.filterMap tryRead).flatten) ∧
    (∀ l2 l3 : List Row,
      mergeRows [SourceOutcome.payload (some l2), SourceOutcome.loadError,
        SourceOutcome.payload (some l3)] = l2 ++ l3 ∧
      (mergeRows [SourceOutcome.payload (some l2), SourceOutcome.loadError,
        SourceOutcome.payload (some l3)]).length = l2.length + l3.length) := by
  have hmain : ∀ sources : List SourceOutcome,
      mergeRows sources = (sources.filterMap tryRead).flatten := by
    intro sources
    unfold mergeRows
    rw [mergeRows_foldl]
    simp
  refine ⟨hmain, fun l2 l3 => ?_⟩
  have h : mergeRows [SourceOutcome.payload (some l2), SourceOutcome.loadError,
      SourceOutcome.payload (some l3)] = l2 ++ l3 := by
    rw [hmain]
    simp [tryRead]
  exact ⟨h, by rw [h, List.length_append]⟩

/-! ## Claim C8: facets ignore the filters -/

/-- C8: two aggregation queries over the same corpus that differ only in
their filters return identical facet lists — facets are computed over the
full unfiltered corpus. -/
theorem facets_filter_independent (rows : List Row) (q1 q2 : Query) :
    (aggResponse rows q1).facets_sections = (aggResponse rows q2).facets_sections ∧
    (aggResponse rows q1).facets_categories = (aggResponse rows q2).facets_categories := by
  unfold aggResponse
  by_cases h : rows.isEmpty <;> simp [h]

/-! ## Claim C9: listing limit and offset -/

/-- Counterexample to C9: the non-numeric limit parameter "abc" makes
parseInt return NaN, which Math.min/Math.max propagate, so the effective
limit is not clamped into [1, 500]: the page comes back empty although the
one-record corpus passes every filter and any limit in [1, 500] (such as 1,
or the default 20 with the parameter absent) returns that record. -/
theorem listing_clamp_counterexample :
    limitOf (some "abc") = none ∧
    itemsResponse [{ title := "a", date_iso := "2024-01-02" }] {} (some "abc") none =
      (1, []) ∧
    itemsResponse [{ title := "a", date_iso := "2024-01-02" }] {} (some "1") none =
      (1, [{ title := "a", date_iso := "2024-01-02" }]) ∧
    itemsResponse [{ title := "a", date_iso := "2024-01-02" }] {} none none =
      (1, [{ title := "a", date_iso := "2024-01-02" }]) := by
  refine ⟨by decide, by decide, by decide, by decide⟩

/-- offset + NaN and NaN + limit are NaN. -/
theorem optAdd_none_right (o : Option Int) : optAdd o none = none := by
  cases o <;> rfl

/-- C9 (amended): limit defaults to 20 when absent or empty and, when the
parameter parses as a number, is clamped into [1, 500]; offset defaults to 0
and is clamped to ≥ 0 when numeric; the returned items are the
filtered-and-sorted set sliced at [offset, offset + limit); but a
non-numeric limit is NaN rather than clamped, and then the page is empty. -/
theorem listing_clamp_amended :
    (limitOf none = some 20 ∧ offsetOf none = some 0) ∧
    (∀ (s : String) (n : Int), s.data ≠ [] → parseIntJs s = some n →
      limitOf (some s) = some (max 1 (min 500 n)) ∧
      1 ≤ max 1 (min 500 n) ∧ max 1 (min 500 n) ≤ 500) ∧
    (∀ (s : String) (n : Int), s.data ≠ [] → parseIntJs s = some n →
      offsetOf (some s) = some (max 0 n) ∧ 0 ≤ max 0 n) ∧
    (∀ (rows : List Row) (qy : Query) (limitRaw offsetRaw : Option String),
      rows ≠ [] →
      itemsResponse rows qy limitRaw offsetRaw =
        ((rows.filter (itemsKeep qy)).length,
          jsSlice (sortedFiltered rows qy) (offsetOf offsetRaw)
            (optAdd (offsetOf offsetRaw) (limitOf limitRaw)))) ∧
    (∀ (rows : List Row) (qy : Query) (offsetRaw : Option String) (s : String),
      limitOf (some s) = none →
      itemsPage rows qy (some s) offsetRaw = []) := by
  refine ⟨⟨by decide, by decide⟩, ?_, ?_, ?_, ?_⟩
  · intro s n hs hp
    have hse : s.data.isEmpty = false := by simpa [List.isEmpty_iff] using hs
    refine ⟨?_, by omega, by omega⟩
    unfold limitOf
    simp only [rawOr, hse, Bool.false_eq_true, if_false, hp, Option.map_some']
  · intro s n hs hp
    have hse : s.data.isEmpty = false := by simpa [List.isEmpty_iff] using hs
    refine ⟨?_, by omega⟩
    unfold offsetOf
    simp only [rawOr, hse, Bool.false_eq_true, if_false, hp, Option.map_some']
  · intro rows qy limitRaw offsetRaw hrows
    have hne : rows.isEmpty = false := by simpa [List.isEmpty_iff] using hrows
    unfold itemsResponse
    rw [hne]
    rfl
  · intro rows qy offsetRaw s hlim
    unfold itemsPage
    rw [hlim, optAdd_none_right]
    simp [jsSlice, jsSliceIdx]

/-- Witness for C9 (amended): concrete clamped values and a concrete page
equation, plus the empty page under a non-numeric limit. -/
theorem listing_clamp_amended_witness :
    limitOf (some "900") = some 500 ∧
    offsetOf (some "-3") = some 0 ∧
    itemsResponse [{ title := "a" }] {} (some "900") (some "-3") =
      (1, jsSlice (sortedFiltered [{ title := "a" }] {}) (offsetOf (some "-3"))
        (optAdd (offsetOf (some "-3")) (limitOf (some "900")))) ∧
    itemsPage [{ title := "a" }] {} (some "x") none = [] := by
  refine ⟨?_, ?_, ?_, ?_⟩
  · rw [(listing_clamp_amended.2.1 "900" 900 (by decide) (by decide)).1]
    decide
  · rw [(listing_clamp_amended.2.2.1 "-3" (-3) (by decide) (by decide)).1]
    decide
  · exact listing_clamp_amended.2.2.2.1 [{ title := "a" }] {} (some "900") (some "-3")
      (by decide)
  · exact listing_clamp_amended.2.2.2.2 [{ title := "a" }] {} none "x" (by decide)

/-! ## Claim C10: the groupings' counts each sum to the total -/

theorem mem_firstDedupAux {α : Type} [DecidableEq α] :
    ∀ (l seen : List α) (a : α), a ∈ firstDedupAux l seen ↔ a ∈ l ∧ a ∉ seen := by
  intro l
  induction l with
  | nil => intro seen a; simp [firstDedupAux]
  | cons x xs ih =>
    intro seen a
    unfold firstDedupAux
    by_cases hx : seen.contains x
    · rw [if_pos hx, ih]
      have hxm : x ∈ seen := by simpa using hx
      constructor
      · rintro ⟨h1, h2⟩
        exact ⟨List.mem_cons_of_mem _ h1, h2⟩
      · rintro ⟨h1, h2⟩
        rcases List.mem_cons.mp h1 with rfl | h1'
        · exact absurd hxm h2
        · exact ⟨h1', h2⟩
    · rw [if_neg hx]
      have hxm : x ∉ seen := by simpa using hx
      rw [List.mem_cons, ih]
      constructor
      · rintro (rfl | ⟨h1, h2⟩)
        · exact ⟨List.mem_cons_self _ _, hxm⟩
        · refine ⟨List.mem_cons_of_mem _ h1, fun hc => h2 ?_⟩
          simp [hc]
      · rintro ⟨h1, h2⟩
        by_cases hax : a = x
        · exact Or.inl hax
        · have h1' : a ∈ xs := by
            rcases List.mem_cons.mp h1 with rfl | hmem
            · exact absurd rfl hax
            · exact hmem
          refine Or.inr ⟨h1', fun hc => ?_⟩
          rcases List.mem_append.mp hc with hc' | hc'
          · exact h2 hc'
          · simp at hc'
            exact hax hc'

theorem nodup_firstDedupAux {α : Type} [DecidableEq α] :
    ∀ l seen : List α, (firstDedupAux l seen).Nodup := by
  intro l
  induction l with
  | nil => intro seen; simp [firstDedupAux]
  | cons x xs ih =>
    intro seen
    unfold firstDedupAux
    by_cases hx : seen.contains x
    · rw [if_pos hx]; exact ih seen
    · rw [if_neg hx]
      refine List.nodup_cons.mpr ⟨fun hc => ?_, ih (seen ++ [x])⟩
      have := (mem_firstDedupAux xs (seen ++ [x]) x).mp hc
      exact this.2 (by simp)

/-- The insertion-order dedup is a permutation of Mathlib's dedup. -/
theorem firstDedup_perm_dedup {α : Type} [DecidableEq α] (l : List α) :
    firstDedup l ~ l.dedup := by
  refine (List.perm_ext_iff_of_nodup (nodup_firstDedupAux l []) l.nodup_dedup).mpr ?_
  intro a
  rw [List.mem_dedup, mem_firstDedupAux]
  simp

/-- Summing, over the distinct labels, how often each occurs gives the length
of the label list. -/
theorem sum_map_count_firstDedup (l : List String) :
    ((firstDedup l).map (fun x => l.count x)).sum = l.length := by
  have hperm : firstDedup l ~ l.dedup := firstDedup_perm_dedup l
  rw [(hperm.map (fun x => l.count x)).sum_eq]
  exact List.sum_map_count_dedup_eq_length l

/-- Sorting pairs by descending count does not change the sum of counts. -/
theorem sum_snd_sortByCountDesc (pairs : List (String × Nat)) :
    ((sortByCountDesc pairs).map Prod.snd).sum = (pairs.map Prod.snd).sum :=
  ((List.perm_insertionSort _ pairs).map Prod.snd).sum_eq

/-- The counts of a label-count map sum to the number of labels counted. -/
theorem sum_snd_countsByLabel (labels : List String) :
    ((countsByLabel labels).map Prod.snd).sum = labels.length := by
  unfold countsByLabel
  rw [List.map_map]
  exact sum_map_count_firstDedup labels

/-- C10: for every non-empty corpus and every aggregation query, the counts
of by_category, of by_section and of by_year_month each sum to total: every
filtered record lands in exactly one bucket of each grouping. -/
theorem grouping_counts_sum_to_total (rows : List Row) (qy : Query)
    (h : rows ≠ []) :
    ((aggResponse rows qy).by_category.map Prod.snd).sum = (aggResponse rows qy).total ∧
    ((aggResponse rows qy).by_section.map Prod.snd).sum = (aggResponse rows qy).total ∧
    (aggResponse rows qy).ym_counts.sum = (aggResponse rows qy).total := by
  have hne : rows.isEmpty = false := by simpa [List.isEmpty_iff] using h
  unfold aggResponse
  rw [hne]
  simp only [Bool.false_eq_true, if_false]
  refine ⟨?_, ?_, ?_⟩
  · rw [sum_snd_sortByCountDesc, sum_snd_countsByLabel, List.length_map]
  · rw [sum_snd_sortByCountDesc, sum_snd_countsByLabel, List.length_map]
  · -- the year-month series: the sorted labels are a permutation of the
    -- distinct labels of the filtered rows
    have hperm : sortYmLabels ((rows.filter (chartKeep qy)).map toYmLabel) ~
        firstDedup ((rows.filter (chartKeep qy)).map toYmLabel) :=
      List.perm_insertionSort _ _
    rw [(hperm.map (fun l => ((rows.filter (chartKeep qy)).map toYmLabel).count l)).sum_eq,
      sum_map_count_firstDedup, List.length_map]

/-- Witness for C10 on a concrete two-record corpus with no filters. -/
theorem grouping_counts_sum_to_total_witness :
    (([{ title := "a", date_iso := "2024-01-02" },
       { title := "b", date_iso := "2024-01-10", section' := "news" }] : List Row) ≠ []) ∧
    (((aggResponse [{ title := "a", date_iso := "2024-01-02" },
        { title := "b", date_iso := "2024-01-10", section' := "news" }] {}).by_category.map
          Prod.snd).sum =
      (aggResponse [{ title := "a", date_iso := "2024-01-02" },
        { title := "b", date_iso := "2024-01-10", section' := "news" }] {}).total ∧
    ((aggResponse [{ title := "a", date_iso := "2024-01-02" },
        { title := "b", date_iso := "2024-01-10", section' := "news" }] {}).by_section.map
          Prod.snd).sum =
      (aggResponse [{ title := "a", date_iso := "2024-01-02" },
        { title := "b", date_iso := "2024-01-10", section' := "news" }] {}).total ∧
    (aggResponse [{ title := "a", date_iso := "2024-01-02" },
        { title := "b", date_iso := "2024-01-10", section' := "news" }] {}).ym_counts.sum =
      (aggResponse [{ title := "a", date_iso := "2024-01-02" },
        { title := "b", date_iso := "2024-01-10", section' := "news" }] {}).total) :=
  ⟨by decide,
    grouping_counts_sum_to_total
      [{ title := "a", date_iso := "2024-01-02" },
       { title := "b", date_iso := "2024-01-10", section' := "news" }] {} (by decide)⟩

end Scrapper
